import Mathlib

/-!
Verification of the dmipy diffusion-MRI microstructure modeling toolkit notebooks:
multi-compartment signal simulation, constrained spherical deconvolution (CSD),
the three-stage MIX optimizer, parameter linking, multi-tissue volume-fraction
correction, and per-voxel fitting.  Rational arithmetic stands in for the
floating-point arrays of the original; matrices are Mathlib matrices.
-/

open Matrix

/-- Squared Euclidean norm of a vector, as a dot product with itself. -/
def normSq {n : ℕ} (v : Fin n → ℚ) : ℚ := v ⬝ᵥ v

/-- Sum of squared differences between two signal vectors. -/
def ssd {n : ℕ} (x y : Fin n → ℚ) : ℚ := ∑ d, (x d - y d) ^ 2

/-- Solution of the square linear system H f = c, written with the adjugate so it
is total and executable; it equals H⁻¹ c whenever H is invertible. -/
def linSolve {n : ℕ} (H : Matrix (Fin n) (Fin n) ℚ) (c : Fin n → ℚ) : Fin n → ℚ :=
  (H.det)⁻¹ • (H.adjugate *ᵥ c)

/-- Modelled from the spec: the regularized least-squares objective of the CSD
solver (whose implementation is not under src/), with data term, positivity
penalty weighted by lp and Laplace-Beltrami smoothness penalty weighted by llb. -/
def regObjective {nd ns nc : ℕ} (A : Matrix (Fin nd) (Fin nc) ℚ) (b : Fin nd → ℚ)
    (L : Matrix (Fin ns) (Fin nc) ℚ) (R : Matrix (Fin nc) (Fin nc) ℚ)
    (lp llb : ℚ) (f : Fin nc → ℚ) : ℚ :=
  normSq (A *ᵥ f - b) + lp * normSq (L *ᵥ f) + llb * normSq (R *ᵥ f)

/-- Modelled from the spec: the system matrix A^T A + lp L^T L + llb R^T R of the
normal equations for the regularized least-squares problem. -/
def normalMatrix {nd ns nc : ℕ} (A : Matrix (Fin nd) (Fin nc) ℚ)
    (L : Matrix (Fin ns) (Fin nc) ℚ) (R : Matrix (Fin nc) (Fin nc) ℚ)
    (lp llb : ℚ) : Matrix (Fin nc) (Fin nc) ℚ :=
  Aᵀ * A + lp • (Lᵀ * L) + llb • (Rᵀ * R)

/-- Modelled from the spec: a multi-compartment model (its implementation is not
under src/) as a family of per-compartment signal attenuations, each a function
of the non-linear parameters, evaluated at nd acquisition points. -/
structure MCModel (nd np nc : ℕ) where
  att : Fin nc → (Fin np → ℚ) → Fin nd → ℚ

/-- Modelled from the spec: simulate_signal, the volume-fraction-weighted sum of
the per-compartment signal attenuations. -/
def simulate_signal {nd np nc : ℕ} (m : MCModel nd np nc)
    (pars : Fin np → ℚ) (vf : Fin nc → ℚ) : Fin nd → ℚ :=
  fun d => ∑ i, vf i * m.att i pars d

/-- Modelled from the spec: the "stochastic cost function" output, the matrix
whose column i is compartment i's signal attenuation with all volume fractions
set to one. -/
def stochasticCostMatrix {nd np nc : ℕ} (m : MCModel nd np nc)
    (pars : Fin np → ℚ) : Matrix (Fin nd) (Fin nc) ℚ :=
  Matrix.of fun d i => m.att i pars d

/-- Modelled from the spec: MIX stage-1 volume fractions, recovered by
unconstrained least squares (pseudo-inverse) of the per-compartment signal
matrix against the measured signal, via the normal equations. -/
def lsVolumeFractions {nd np nc : ℕ} (m : MCModel nd np nc)
    (pars : Fin np → ℚ) (signal : Fin nd → ℚ) : Fin nc → ℚ :=
  linSolve ((stochasticCostMatrix m pars)ᵀ * stochasticCostMatrix m pars)
    ((stochasticCostMatrix m pars)ᵀ *ᵥ signal)

/-- Modelled from the spec: the cost sampled by differential evolution in MIX
stage 1, the residual after least-squares recovery of the volume fractions. -/
def stochasticObjective {nd np nc : ℕ} (m : MCModel nd np nc)
    (signal : Fin nd → ℚ) (pars : Fin np → ℚ) : ℚ :=
  normSq (stochasticCostMatrix m pars *ᵥ lsVolumeFractions m pars signal - signal)

/-- The state passed between MIX stages: non-linear parameters and linear
volume fractions. -/
structure MixState (np nc : ℕ) where
  theta : Fin np → ℚ
  fractions : Fin nc → ℚ

/-- Modelled from the spec: mix.cobyla_cost_function, the residual of the fixed
per-compartment signal matrix times candidate volume fractions. -/
def cobyla_cost_function {nd np nc : ℕ} (m : MCModel nd np nc)
    (pars : Fin np → ℚ) (signal : Fin nd → ℚ) (vf : Fin nc → ℚ) : ℚ :=
  normSq (stochasticCostMatrix m pars *ᵥ vf - signal)

/-- COBYLA positivity constraint on volume fractions, from the source:
returns volume_fractions - 0.001, required nonnegative by COBYLA. -/
def cobyla_positivity_constraint {nc : ℕ} (vf : Fin nc → ℚ) : Fin nc → ℚ :=
  fun i => vf i - 1 / 1000

/-- COBYLA unity constraint on volume fractions, from the source:
returns sum(volume_fractions) - 1, required nonnegative by COBYLA. -/
def cobyla_unity_constraint {nc : ℕ} (vf : Fin nc → ℚ) : ℚ :=
  (∑ i, vf i) - 1

/-- Feasibility under COBYLA semantics: every constraint function evaluates
nonnegatively at the point. -/
def cobylaFeasible {nc : ℕ} (vf : Fin nc → ℚ) : Prop :=
  (∀ i, 0 ≤ cobyla_positivity_constraint vf i) ∧ 0 ≤ cobyla_unity_constraint vf

/-- Modelled from the spec: MIX stage 1 (implementation not under src/): a
stochastic differential-evolution search, abstracted as an oracle de mapping a
cost function to its returned minimizer, over the non-linear parameters only;
the volume fractions are recovered by unconstrained least squares. -/
def mixStage1 {nd np nc : ℕ} (m : MCModel nd np nc)
    (de : ((Fin np → ℚ) → ℚ) → (Fin np → ℚ)) (signal : Fin nd → ℚ) :
    MixState np nc :=
  ⟨de (stochasticObjective m signal),
   lsVolumeFractions m (de (stochasticObjective m signal)) signal⟩

/-- Modelled from the spec: MIX stage 2 (implementation not under src/): a
COBYLA oracle cob receives the cost function, the positivity and unity
constraint functions and the stage-1 fractions as starting point, and returns
new volume fractions; the stage-1 non-linear parameters are kept. -/
def mixStage2 {nd np nc : ℕ} (m : MCModel nd np nc)
    (cob : ((Fin nc → ℚ) → ℚ) → ((Fin nc → ℚ) → Fin nc → ℚ) →
      ((Fin nc → ℚ) → ℚ) → (Fin nc → ℚ) → (Fin nc → ℚ))
    (signal : Fin nd → ℚ) (s : MixState np nc) : MixState np nc :=
  ⟨s.theta, cob (cobyla_cost_function m s.theta signal)
    cobyla_positivity_constraint cobyla_unity_constraint s.fractions⟩

/-- Modelled from the spec: the full MIX cost over all parameters jointly, the
residual of the simulated signal against the data. -/
def mixObjective {nd np nc : ℕ} (m : MCModel nd np nc) (signal : Fin nd → ℚ)
    (s : MixState np nc) : ℚ :=
  normSq (simulate_signal m s.theta s.fractions - signal)

/-- Modelled from the spec: MIX stage 3 (implementation not under src/): a
gradient-based L-BFGS-B oracle lb refines all parameters jointly, starting
from the stage-1/2 solution. -/
def mixStage3 {nd np nc : ℕ} (m : MCModel nd np nc)
    (lb : (MixState np nc → ℚ) → MixState np nc → MixState np nc)
    (signal : Fin nd → ℚ) (s : MixState np nc) : MixState np nc :=
  lb (mixObjective m signal) s

/-- Modelled from the spec: the complete MIX pipeline, the sequential
composition of the three stages. -/
def mixFit {nd np nc : ℕ} (m : MCModel nd np nc)
    (de : ((Fin np → ℚ) → ℚ) → (Fin np → ℚ))
    (cob : ((Fin nc → ℚ) → ℚ) → ((Fin nc → ℚ) → Fin nc → ℚ) →
      ((Fin nc → ℚ) → ℚ) → (Fin nc → ℚ) → (Fin nc → ℚ))
    (lb : (MixState np nc → ℚ) → MixState np nc → MixState np nc)
    (signal : Fin nd → ℚ) : MixState np nc :=
  mixStage3 m lb signal (mixStage2 m cob signal (mixStage1 m de signal))

/-- Modelled from the spec: a single-compartment CSD problem (solver
implementation not under src/): observation matrix A, measured data b, a
spherical-harmonics-transform matrix mapping coefficients to sphere values,
the spherical-harmonic order of each coefficient, the two regularization
weights, and the lower-order starting FOD coefficients. -/
structure CSDProblem (nd ns nc : ℕ) where
  A : Matrix (Fin nd) (Fin nc) ℚ
  b : Fin nd → ℚ
  sht : Matrix (Fin ns) (Fin nc) ℚ
  shOrder : Fin nc → ℕ
  lambdaPos : ℚ
  lambdaLB : ℚ
  fLow : Fin nc → ℚ

/-- Modelled from the spec: the positivity matrix L, the SHT matrix with the
rows mapping to positive FOD values zeroed out. -/
def positivityMatrix {nd ns nc : ℕ} (p : CSDProblem nd ns nc)
    (f : Fin nc → ℚ) : Matrix (Fin ns) (Fin nc) ℚ :=
  Matrix.of fun i j => if 0 < (p.sht *ᵥ f) i then 0 else p.sht i j

/-- Modelled from the spec: the Laplace-Beltrami smoothness matrix R, diagonal
with entries l(l+1) for the order l of each coefficient. -/
def laplaceBeltramiMatrix {nd ns nc : ℕ} (p : CSDProblem nd ns nc) :
    Matrix (Fin nc) (Fin nc) ℚ :=
  Matrix.diagonal fun j => ((p.shOrder j : ℚ) * ((p.shOrder j : ℚ) + 1))

/-- Modelled from the spec: the starting FOD of the CSD iteration, a
lower-spherical-harmonics-order FOD: coefficients above order 4 are zero. -/
def csdInit {nd ns nc : ℕ} (p : CSDProblem nd ns nc) : Fin nc → ℚ :=
  fun j => if p.shOrder j ≤ 4 then p.fLow j else 0

/-- Modelled from the spec: the CSD iteration: starting from the lower-order
FOD, each step recomputes the positivity matrix from the current FOD and
solves the regularized least-squares normal equations in closed form. -/
def csdIterate {nd ns nc : ℕ} (p : CSDProblem nd ns nc) : ℕ → Fin nc → ℚ
  | 0 => csdInit p
  | n + 1 =>
      linSolve
        (normalMatrix p.A (positivityMatrix p (csdIterate p n))
          (laplaceBeltramiMatrix p) p.lambdaPos p.lambdaLB)
        ((p.A)ᵀ *ᵥ p.b)

/-- Modelled from the spec: a multi-tissue multi-compartment model, a base
model together with an S0 tissue response per compartment. -/
structure MTModel (nd np nc : ℕ) where
  base : MCModel nd np nc
  S0resp : Fin nc → ℚ

/-- Result of the standard (primary) fit: non-linear parameters and signal
fractions. -/
structure StandardFit (np nc : ℕ) where
  theta : Fin np → ℚ
  sigFractions : Fin nc → ℚ

/-- Result of a multi-tissue fit: the untouched standard-fit parameters plus
the secondary multi-tissue volume fractions. -/
structure MTFit (np nc : ℕ) where
  standard : StandardFit np nc
  mtFractions : Fin nc → ℚ

/-- Modelled from the spec: the S0-response-scaled per-compartment signal
matrix used by the secondary multi-tissue optimization. -/
def s0ScaledMatrix {nd np nc : ℕ} (mt : MTModel nd np nc)
    (pars : Fin np → ℚ) : Matrix (Fin nd) (Fin nc) ℚ :=
  Matrix.of fun d i => mt.S0resp i * mt.base.att i pars d

/-- Modelled from the spec: the secondary multi-tissue step (implementation
not under src/): a purely linear least-squares estimate of the
S0-response-scaled volume fractions, with no unity constraint imposed. -/
def multiTissueFractions {nd np nc : ℕ} (mt : MTModel nd np nc)
    (pars : Fin np → ℚ) (signal : Fin nd → ℚ) : Fin nc → ℚ :=
  linSolve ((s0ScaledMatrix mt pars)ᵀ * s0ScaledMatrix mt pars)
    ((s0ScaledMatrix mt pars)ᵀ *ᵥ signal)

/-- Modelled from the spec: fitting a multi-tissue model: the standard
optimization (an oracle standardOpt) completes first, then the secondary
multi-tissue optimization runs on its output, leaving it unchanged. -/
def mtModelFit {nd np nc : ℕ} (mt : MTModel nd np nc)
    (standardOpt : (Fin nd → ℚ) → StandardFit np nc)
    (signal : Fin nd → ℚ) : MTFit np nc :=
  ⟨standardOpt signal, multiTissueFractions mt (standardOpt signal).theta signal⟩

/-- Modelled from the spec: dataset fitting as the independent per-voxel
application of a single-voxel fit to each voxel's signal. -/
def fitVoxels {Sig Par : Type} (fit1 : Sig → Par) (data : List Sig) : List Par :=
  data.map fit1

/-- A linked-parameter rule: how a removed parameter's value is computed
internally from the remaining ones. -/
inductive ParamLink where
  | tortuous (lambdaParName vfName : String)
  | equalTo (firstName : String)
  | fixedTo (v : ℚ)
  | fractionTimes (fracName baseName : String)

/-- Modelled from the spec: the parameter-naming and linking layer of a model
(implementation not under src/): the list of optimized parameter names and the
rules for the linked (no longer optimized) parameters. -/
structure LinkedModel where
  parameter_names : List String
  links : List (String × ParamLink)

/-- Modelled from the spec: set_tortuous_parameter removes the perpendicular
diffusivity from the optimized names and links it to (1 - vf) * lambda_par. -/
def set_tortuous_parameter (m : LinkedModel) (lperp lpar vf : String) :
    LinkedModel :=
  ⟨m.parameter_names.erase lperp, (lperp, ParamLink.tortuous lpar vf) :: m.links⟩

/-- Modelled from the spec: set_equal_parameter removes the second-named
parameter from the optimized names and links it to the first-named one. -/
def set_equal_parameter (m : LinkedModel) (p q : String) : LinkedModel :=
  ⟨m.parameter_names.erase q, (q, ParamLink.equalTo p) :: m.links⟩

/-- Modelled from the spec: set_fixed_parameter removes the parameter from the
optimized names and links it to the given constant. -/
def set_fixed_parameter (m : LinkedModel) (p : String) (v : ℚ) : LinkedModel :=
  ⟨m.parameter_names.erase p, (p, ParamLink.fixedTo v) :: m.links⟩

/-- Modelled from the spec: set_fractional_parameter replaces a parameter by a
new one named with suffix _fraction, appended at the end of the optimized
names, interpreted internally as fraction times the second parameter. -/
def set_fractional_parameter (m : LinkedModel) (a bpar : String) : LinkedModel :=
  ⟨m.parameter_names.erase a ++ [a ++ "_fraction"],
   (a, ParamLink.fractionTimes (a ++ "_fraction") bpar) :: m.links⟩

/-- Modelled from the spec: the internally computed value of a linked
parameter, given the values of the remaining parameters. -/
def linkedValue (val : String → ℚ) : ParamLink → ℚ
  | ParamLink.tortuous lpar vf => (1 - val vf) * val lpar
  | ParamLink.equalTo p => val p
  | ParamLink.fixedTo v => v
  | ParamLink.fractionTimes f bpar => val f * val bpar

/-- The Watson-bundle parameter names of the parameter-linking tutorial. -/
def watsonBundle : LinkedModel :=
  ⟨["G2Zeppelin_1_lambda_perp", "SD1Watson_1_odi", "G2Zeppelin_1_lambda_par",
    "SD1Watson_1_mu", "C1Stick_1_lambda_par", "partial_volume_0"], []⟩

/-- The Zeppelin spherical-mean model of the fractional-parameter tutorial. -/
def smtModel : LinkedModel :=
  ⟨["G2Zeppelin_1_lambda_perp", "G2Zeppelin_1_lambda_par"], []⟩

/-- The volume fractions printed by the MIX stage-2 COBYLA run in the source
notebook. -/
def cobylaReturnedFractions : Fin 2 → ℚ :=
  ![48863674 / 100000000, 51150103 / 100000000]

/-- A ball-and-stick-like model in which the two compartments produce exactly
the same signal, the degenerate situation the MIX notebook warns about. -/
def ballStickDegenerate : MCModel 2 1 2 :=
  ⟨fun _ _ d => if d = 0 then 1 else 1 / 2⟩

/-- Ground-truth volume fractions for the degenerate model. -/
def degenTrueFractions : Fin 2 → ℚ := ![3 / 10, 7 / 10]

/-- A different fraction split producing the same signal in the degenerate
model. -/
def degenAltFractions : Fin 2 → ℚ := ![1 / 2, 1 / 2]

/-- The signal simulated from the ground-truth fractions of the degenerate
model. -/
def degenSignal : Fin 2 → ℚ :=
  simulate_signal ballStickDegenerate (fun _ => 0) degenTrueFractions

/-- Modelled from the spec: the extra generators of the MC-CSD observation
matrix: one per isotropic compartment, mapping that compartment's sole
l=0, m=0 coefficient to its signal attenuation at every data position. -/
def isoColumnMatrix {nd : ℕ} (isos : List (Fin nd → ℝ)) :
    Matrix (Fin nd) (Fin isos.length) ℝ :=
  Matrix.of fun d i => isos.get i d

/-- Modelled from the spec: the MC-CSD observation matrix (implementation not
under src/): exactly one anisotropic convolution kernel block, extended with
one generator per isotropic compartment; the isotropic coefficients sit at
the end of the coefficient vector. -/
def mcCsdObservationMatrix {nd nc : ℕ} (aniso : Matrix (Fin nd) (Fin nc) ℝ)
    (isos : List (Fin nd → ℝ)) :
    Matrix (Fin nd) (Fin nc ⊕ Fin isos.length) ℝ :=
  Matrix.fromColumns aniso (isoColumnMatrix isos)

/-- The sphere's jacobian factor 2 * sqrt(pi) relating an l=0, m=0 spherical
harmonic coefficient to a volume fraction. -/
noncomputable def sphereJacobian : ℝ := 2 * Real.sqrt Real.pi

/-- Modelled from the spec: the volume fraction of isotropic compartment i,
its sole l=0, m=0 coefficient (stored at the end of f) times 2 * sqrt(pi). -/
noncomputable def isoVolumeFraction {nc k : ℕ} (f : Fin nc ⊕ Fin k → ℝ)
    (i : Fin k) : ℝ :=
  f (Sum.inr i) * sphereJacobian

/-- Modelled from the spec: the volume fraction of the single anisotropic
compartment, its l=0, m=0 coefficient (the first one) times 2 * sqrt(pi). -/
noncomputable def anisoVolumeFraction {nc k : ℕ} (f : Fin (nc + 1) ⊕ Fin k → ℝ) :
    ℝ :=
  f (Sum.inl 0) * sphereJacobian

/-- Number of rows (data positions) of an observation matrix. -/
def obsRowCount {m n : Type} [Fintype m] (_ : Matrix m n ℝ) : ℕ :=
  Fintype.card m

/-- Number of columns (coefficients) of an observation matrix. -/
def obsColCount {m n : Type} [Fintype n] (_ : Matrix m n ℝ) : ℕ :=
  Fintype.card n

/-- A concrete 2-measurement, 1-coefficient anisotropic kernel block. -/
def anisoConcrete : Matrix (Fin 2) (Fin 1) ℝ := Matrix.of ![![1], ![1]]

/-- A concrete isotropic kernel attenuation. -/
def isoConcrete : Fin 2 → ℝ := fun _ => 1

/-- A concrete one-compartment model for witnesses: constant unit attenuation. -/
def unitModel : MCModel 1 1 1 := ⟨fun _ _ _ => 1⟩

/-- A trivial differential-evolution oracle for witnesses. -/
def deTrivial : ((Fin 1 → ℚ) → ℚ) → (Fin 1 → ℚ) := fun _ _ => 1

/-- A trivial COBYLA oracle for witnesses: returns its starting point. -/
def cobTrivial : ((Fin 1 → ℚ) → ℚ) → ((Fin 1 → ℚ) → Fin 1 → ℚ) →
    ((Fin 1 → ℚ) → ℚ) → (Fin 1 → ℚ) → (Fin 1 → ℚ) := fun _ _ _ x0 => x0

/-- A trivial L-BFGS-B oracle for witnesses: returns its starting point. -/
def lbTrivial : (MixState 1 1 → ℚ) → MixState 1 1 → MixState 1 1 := fun _ s => s

/-- A concrete unit signal for witnesses. -/
def unitSignal : Fin 1 → ℚ := fun _ => 1

/-- A concrete CSD problem for witnesses: unit matrices, order-0 harmonics,
zero regularization weights. -/
def csdConcrete : CSDProblem 1 1 1 :=
  ⟨Matrix.of ![![1]], fun _ => 1, Matrix.of ![![1]], fun _ => 0, 0, 0, fun _ => 1⟩

/-- A concrete multi-tissue model for witnesses: unit attenuation, S0
response 2. -/
def mtConcrete : MTModel 1 1 1 := ⟨⟨fun _ _ _ => 1⟩, fun _ => 2⟩

/-- A concrete standard-fit oracle for witnesses. -/
def stdConcrete : (Fin 1 → ℚ) → StandardFit 1 1 := fun _ => ⟨fun _ => 17 / 10, fun _ => 1⟩

/-- The squared norm is nonnegative. -/
lemma normSq_nonneg {n : ℕ} (v : Fin n → ℚ) : 0 ≤ normSq v :=
  Finset.sum_nonneg fun i _ => mul_self_nonneg (v i)

/-- Expansion of the squared norm of a sum. -/
lemma normSq_add_expand {n : ℕ} (u v : Fin n → ℚ) :
    normSq (u + v) = normSq u + 2 * (u ⬝ᵥ v) + normSq v := by
  simp only [normSq, add_dotProduct, dotProduct_add]
  rw [dotProduct_comm v u]
  ring

/-- Moving a matrix across a dot product via its transpose. -/
lemma dot_shift {d n : ℕ} (M : Matrix (Fin d) (Fin n) ℚ) (u : Fin d → ℚ)
    (w : Fin n → ℚ) : u ⬝ᵥ (M *ᵥ w) = (Mᵀ *ᵥ u) ⬝ᵥ w := by
  rw [dotProduct_mulVec, ← mulVec_transpose]

/-- linSolve really solves the system when the matrix is invertible. -/
lemma linSolve_mulVec {n : ℕ} (H : Matrix (Fin n) (Fin n) ℚ) (c : Fin n → ℚ)
    (hdet : H.det ≠ 0) : H *ᵥ linSolve H c = c := by
  rw [linSolve, mulVec_smul, mulVec_mulVec, Matrix.mul_adjugate,
    smul_mulVec_assoc, one_mulVec, smul_smul, inv_mul_cancel₀ hdet, one_smul]

/-- linSolve is the unique solution when the matrix is invertible. -/
lemma linSolve_unique {n : ℕ} (H : Matrix (Fin n) (Fin n) ℚ) (c g : Fin n → ℚ)
    (hdet : H.det ≠ 0) (hg : H *ᵥ g = c) : g = linSolve H c := by
  rw [linSolve, ← hg, mulVec_mulVec, Matrix.adjugate_mul, smul_mulVec_assoc,
    one_mulVec, smul_smul, inv_mul_cancel₀ hdet, one_smul]

/-- The normal matrix acting on a vector, written as composed products. -/
lemma normalMatrix_mulVec {nd ns nc : ℕ} (A : Matrix (Fin nd) (Fin nc) ℚ)
    (L : Matrix (Fin ns) (Fin nc) ℚ) (R : Matrix (Fin nc) (Fin nc) ℚ)
    (lp llb : ℚ) (f : Fin nc → ℚ) :
    normalMatrix A L R lp llb *ᵥ f
      = Aᵀ *ᵥ (A *ᵥ f) + lp • (Lᵀ *ᵥ (L *ᵥ f)) + llb • (Rᵀ *ᵥ (R *ᵥ f)) := by
  rw [normalMatrix, add_mulVec, add_mulVec, smul_mulVec_assoc, smul_mulVec_assoc,
    mulVec_mulVec, mulVec_mulVec, mulVec_mulVec]

/-- Any vector satisfying the normal equations globally minimizes the
regularized least-squares objective, for nonnegative weights. -/
lemma regObjective_min {nd ns nc : ℕ} (A : Matrix (Fin nd) (Fin nc) ℚ)
    (b : Fin nd → ℚ) (L : Matrix (Fin ns) (Fin nc) ℚ)
    (R : Matrix (Fin nc) (Fin nc) ℚ) (lp llb : ℚ) (f : Fin nc → ℚ)
    (hlp : 0 ≤ lp) (hllb : 0 ≤ llb)
    (hstat : normalMatrix A L R lp llb *ᵥ f = Aᵀ *ᵥ b) (g : Fin nc → ℚ) :
    regObjective A b L R lp llb f ≤ regObjective A b L R lp llb g := by
  have hg : g = f + (g - f) := by abel
  have hA : A *ᵥ g - b = (A *ᵥ f - b) + A *ᵥ (g - f) := by
    rw [mulVec_sub]; abel
  have hL : L *ᵥ g = L *ᵥ f + L *ᵥ (g - f) := by
    rw [mulVec_sub]; abel
  have hR : R *ᵥ g = R *ᵥ f + R *ᵥ (g - f) := by
    rw [mulVec_sub]; abel
  have cross : (A *ᵥ f - b) ⬝ᵥ (A *ᵥ (g - f))
      + lp * ((L *ᵥ f) ⬝ᵥ (L *ᵥ (g - f)))
      + llb * ((R *ᵥ f) ⬝ᵥ (R *ᵥ (g - f))) = 0 := by
    have hvec : Aᵀ *ᵥ (A *ᵥ f) + lp • (Lᵀ *ᵥ (L *ᵥ f)) + llb • (Rᵀ *ᵥ (R *ᵥ f))
        = Aᵀ *ᵥ b := by
      rw [← normalMatrix_mulVec]; exact hstat
    have hdp := congrArg (fun v => v ⬝ᵥ (g - f)) hvec
    simp only [add_dotProduct, smul_dotProduct, smul_eq_mul] at hdp
    rw [dot_shift, dot_shift, dot_shift, mulVec_sub, sub_dotProduct]
    linarith
  have expand : regObjective A b L R lp llb g
      = regObjective A b L R lp llb f
        + (normSq (A *ᵥ (g - f)) + lp * normSq (L *ᵥ (g - f))
            + llb * normSq (R *ᵥ (g - f)))
        + 2 * ((A *ᵥ f - b) ⬝ᵥ (A *ᵥ (g - f))
            + lp * ((L *ᵥ f) ⬝ᵥ (L *ᵥ (g - f)))
            + llb * ((R *ᵥ f) ⬝ᵥ (R *ᵥ (g - f)))) := by
    rw [regObjective, regObjective, hA, hL, hR, normSq_add_expand,
      normSq_add_expand, normSq_add_expand]
    ring
  have hnn : 0 ≤ normSq (A *ᵥ (g - f)) + lp * normSq (L *ᵥ (g - f))
      + llb * normSq (R *ᵥ (g - f)) := by
    have n1 := normSq_nonneg (A *ᵥ (g - f))
    have n2 := mul_nonneg hlp (normSq_nonneg (L *ᵥ (g - f)))
    have n3 := mul_nonneg hllb (normSq_nonneg (R *ᵥ (g - f)))
    linarith
  rw [expand, cross]
  linarith

/-- The normal-equation solution of a plain (unregularized) least-squares
problem globally minimizes the residual. -/
lemma linSolve_normal_min {nd nc : ℕ} (A : Matrix (Fin nd) (Fin nc) ℚ)
    (b : Fin nd → ℚ) (hdet : (Aᵀ * A).det ≠ 0) (g : Fin nc → ℚ) :
    normSq (A *ᵥ linSolve (Aᵀ * A) (Aᵀ *ᵥ b) - b) ≤ normSq (A *ᵥ g - b) := by
  have hstat : normalMatrix A (0 : Matrix (Fin nc) (Fin nc) ℚ)
      (0 : Matrix (Fin nc) (Fin nc) ℚ) 0 0 *ᵥ linSolve (Aᵀ * A) (Aᵀ *ᵥ b)
      = Aᵀ *ᵥ b := by
    have h0 : normalMatrix A (0 : Matrix (Fin nc) (Fin nc) ℚ)
        (0 : Matrix (Fin nc) (Fin nc) ℚ) 0 0 = Aᵀ * A := by
      simp [normalMatrix]
    rw [h0]
    exact linSolve_mulVec _ _ hdet
  have h := regObjective_min A b (0 : Matrix (Fin nc) (Fin nc) ℚ) 0 0 0
    (linSolve (Aᵀ * A) (Aᵀ *ᵥ b)) le_rfl le_rfl hstat g
  simpa [regObjective] using h

/-- C5: For every multi-compartment model and complete parameter set, the
simulated signal equals the volume-fraction-weighted sum over compartments of
each compartment's signal attenuation: the per-compartment attenuation matrix
(the "stochastic cost function" output, whose columns are the signals with
volume fractions set to one) times the true volume fractions reproduces
simulate_signal exactly, with zero sum-squared difference. -/
theorem simulate_signal_fraction_weighted {nd np nc : ℕ} (m : MCModel nd np nc)
    (pars : Fin np → ℚ) (vf : Fin nc → ℚ) :
    stochasticCostMatrix m pars *ᵥ vf = simulate_signal m pars vf
    ∧ ssd (stochasticCostMatrix m pars *ᵥ vf) (simulate_signal m pars vf) = 0
    ∧ ∀ i d, stochasticCostMatrix m pars d i
        = simulate_signal m pars (Pi.single i 1) d := by
  have h1 : stochasticCostMatrix m pars *ᵥ vf = simulate_signal m pars vf := by
    funext d
    simp [stochasticCostMatrix, simulate_signal, Matrix.mulVec,
      Matrix.dotProduct, mul_comm]
  refine ⟨h1, ?_, ?_⟩
  · rw [h1]; simp [ssd]
  · intro i d
    simp [stochasticCostMatrix, simulate_signal, Pi.single_apply, ite_mul]

/-- C8: In a multi-compartment model whose two compartments produce the same
signal (the situation the MIX notebook warns about), two distinct volume
fraction assignments yield the identical simulated signal and both attain
zero cost, so the global optimum is not unique and the optimizer can return a
wrong solution. -/
theorem mix_nonunique_global_optimum :
    degenAltFractions ≠ degenTrueFractions
    ∧ simulate_signal ballStickDegenerate (fun _ => 0) degenAltFractions
        = degenSignal
    ∧ mixObjective ballStickDegenerate degenSignal
        ⟨fun _ => 0, degenAltFractions⟩ = 0
    ∧ mixObjective ballStickDegenerate degenSignal
        ⟨fun _ => 0, degenTrueFractions⟩ = 0 := by
  refine ⟨?_, ?_, ?_, ?_⟩
  · intro h
    have h0 := congrFun h 0
    simp [degenAltFractions, degenTrueFractions] at h0
    norm_num at h0
  · funext d
    fin_cases d <;>
      norm_num [simulate_signal, ballStickDegenerate, degenSignal,
        degenTrueFractions, degenAltFractions, Fin.sum_univ_two]
  · norm_num [mixObjective, normSq, Matrix.dotProduct, simulate_signal,
      ballStickDegenerate, degenSignal, degenTrueFractions, degenAltFractions,
      Fin.sum_univ_two]
  · norm_num [mixObjective, normSq, Matrix.dotProduct, simulate_signal,
      ballStickDegenerate, degenSignal, degenTrueFractions,
      Fin.sum_univ_two]

/-- C2 (code bug): the volume fractions actually returned by the MIX stage-2
COBYLA run in the source notebook satisfy both of the code's constraint
functions under COBYLA's one-sided (nonnegativity) semantics, yet they do not
sum to one: the one-sided unity constraint only forces the sum to be at least
one, and the returned sum is 1.00013777. -/
theorem cobyla_unity_violation :
    cobylaFeasible cobylaReturnedFractions
    ∧ cobyla_unity_constraint cobylaReturnedFractions ≠ 0
    ∧ (∑ i, cobylaReturnedFractions i) ≠ 1
    ∧ (∑ i, cobylaReturnedFractions i) = 1 + 13777 / 100000000 := by
  refine ⟨⟨?_, ?_⟩, ?_, ?_, ?_⟩
  · intro i
    fin_cases i <;>
      norm_num [cobyla_positivity_constraint, cobylaReturnedFractions]
  · norm_num [cobyla_unity_constraint, cobylaReturnedFractions,
      Fin.sum_univ_two]
  · norm_num [cobyla_unity_constraint, cobylaReturnedFractions,
      Fin.sum_univ_two]
  · norm_num [cobylaReturnedFractions, Fin.sum_univ_two]
  · norm_num [cobylaReturnedFractions, Fin.sum_univ_two]

/-- C7: voxel fitting is noninterfering and order-independent: the fitted
result at a voxel depends only on that voxel's signal, so two datasets that
agree on voxel v fit identically at v, and a permutation of the voxels
permutes the results accordingly. -/
theorem voxel_fit_noninterference :
    (∀ (fit1 : List ℚ → List ℚ) (d1 d2 : List (List ℚ)) (v : ℕ),
      d1[v]? = d2[v]? →
      (fitVoxels fit1 d1)[v]? = (fitVoxels fit1 d2)[v]?)
    ∧ (∀ (fit1 : List ℚ → List ℚ) (d1 d2 : List (List ℚ)),
      d1.Perm d2 → (fitVoxels fit1 d1).Perm (fitVoxels fit1 d2)) := by
  constructor
  · intro fit1 d1 d2 v h
    simp [fitVoxels, List.getElem?_map, h]
  · intro fit1 d1 d2 h
    simpa [fitVoxels] using h.map fit1

/-- Concrete instance of the voxel noninterference theorem: two datasets
agreeing on voxel 0 fit identically there. -/
theorem voxel_fit_noninterference_witness :
    (fitVoxels (fun s : List ℚ => s) [[1], [2]])[0]?
      = (fitVoxels (fun s : List ℚ => s) [[1], [3]])[0]? :=
  voxel_fit_noninterference.1 (fun s => s) [[1], [2]] [[1], [3]] 0 (by simp)

/-- C1: the MIX optimizer estimates the parameters in exactly three sequential
stages separating the linear volume fractions from the non-linear parameters:
stage 1 is a stochastic search (differential evolution oracle) over the
non-linear parameters only, with the volume fractions recovered by
unconstrained least squares against the per-compartment signal attenuations
(they globally minimize the unconstrained residual); stage 2 hands the volume
fractions, the positivity and unit-sum constraint functions and the stage-1
fractions to the constrained COBYLA oracle while keeping the stage-1
non-linear parameters; stage 3 is a gradient-based refinement oracle over all
parameters starting from the stage-1/2 solution. -/
theorem mix_three_stage_pipeline {nd np nc : ℕ} (m : MCModel nd np nc)
    (de : ((Fin np → ℚ) → ℚ) → (Fin np → ℚ))
    (cob : ((Fin nc → ℚ) → ℚ) → ((Fin nc → ℚ) → Fin nc → ℚ) →
      ((Fin nc → ℚ) → ℚ) → (Fin nc → ℚ) → (Fin nc → ℚ))
    (lb : (MixState np nc → ℚ) → MixState np nc → MixState np nc)
    (signal : Fin nd → ℚ)
    (hdet : ((stochasticCostMatrix m (de (stochasticObjective m signal)))ᵀ *
      stochasticCostMatrix m (de (stochasticObjective m signal))).det ≠ 0) :
    mixFit m de cob lb signal
        = mixStage3 m lb signal (mixStage2 m cob signal (mixStage1 m de signal))
    ∧ (mixStage1 m de signal).theta = de (stochasticObjective m signal)
    ∧ (∀ g, normSq (stochasticCostMatrix m (mixStage1 m de signal).theta *ᵥ
          (mixStage1 m de signal).fractions - signal)
        ≤ normSq (stochasticCostMatrix m (mixStage1 m de signal).theta *ᵥ g
          - signal))
    ∧ (mixStage2 m cob signal (mixStage1 m de signal)).theta
        = (mixStage1 m de signal).theta
    ∧ (mixStage2 m cob signal (mixStage1 m de signal)).fractions
        = cob (cobyla_cost_function m (mixStage1 m de signal).theta signal)
            cobyla_positivity_constraint cobyla_unity_constraint
            (mixStage1 m de signal).fractions
    ∧ mixFit m de cob lb signal
        = lb (mixObjective m signal)
            (mixStage2 m cob signal (mixStage1 m de signal)) := by
  refine ⟨rfl, rfl, ?_, rfl, rfl, rfl⟩
  intro g
  exact linSolve_normal_min (stochasticCostMatrix m
    (de (stochasticObjective m signal))) signal hdet g

/-- Concrete instance of the MIX pipeline theorem: stage 2 keeps the stage-1
non-linear parameters on a concrete model, oracles and signal. -/
theorem mix_three_stage_pipeline_witness :
    (mixStage2 unitModel cobTrivial unitSignal
        (mixStage1 unitModel deTrivial unitSignal)).theta
      = (mixStage1 unitModel deTrivial unitSignal).theta :=
  (mix_three_stage_pipeline unitModel deTrivial cobTrivial lbTrivial unitSignal
    (by
      simp [Matrix.det_fin_one, Matrix.mul_apply, stochasticCostMatrix,
        unitModel, Fin.sum_univ_one])).2.2.2.1

/-- C3: for single-compartment CSD, each iterate of the solver equals the
closed-form regularized least-squares solution of the normal equations
A^T b = (A^T A + lp L^T L + llb R^T R) f, where L is the
spherical-harmonics-transform matrix with the rows mapping to positive FOD
values zeroed out and R is diagonal with entries l(l+1): the next iterate
satisfies the normal equations, is their unique solution, and globally
minimizes the regularized objective for the current positivity matrix; the
iteration starts from a FOD truncated to spherical-harmonics order 4 and
updates the positivity matrix from the current iterate. -/
theorem csd_iterate_closed_form {nd ns nc : ℕ} (p : CSDProblem nd ns nc)
    (n : ℕ)
    (hdet : (normalMatrix p.A (positivityMatrix p (csdIterate p n))
      (laplaceBeltramiMatrix p) p.lambdaPos p.lambdaLB).det ≠ 0)
    (hlp : 0 ≤ p.lambdaPos) (hllb : 0 ≤ p.lambdaLB) :
    normalMatrix p.A (positivityMatrix p (csdIterate p n))
        (laplaceBeltramiMatrix p) p.lambdaPos p.lambdaLB *ᵥ csdIterate p (n + 1)
      = (p.A)ᵀ *ᵥ p.b
    ∧ (∀ g, regObjective p.A p.b (positivityMatrix p (csdIterate p n))
          (laplaceBeltramiMatrix p) p.lambdaPos p.lambdaLB (csdIterate p (n + 1))
        ≤ regObjective p.A p.b (positivityMatrix p (csdIterate p n))
          (laplaceBeltramiMatrix p) p.lambdaPos p.lambdaLB g)
    ∧ (∀ g, normalMatrix p.A (positivityMatrix p (csdIterate p n))
          (laplaceBeltramiMatrix p) p.lambdaPos p.lambdaLB *ᵥ g = (p.A)ᵀ *ᵥ p.b
        → g = csdIterate p (n + 1))
    ∧ (∀ i j, 0 < (p.sht *ᵥ csdIterate p n) i →
        positivityMatrix p (csdIterate p n) i j = 0)
    ∧ (∀ i j, ¬ 0 < (p.sht *ᵥ csdIterate p n) i →
        positivityMatrix p (csdIterate p n) i j = p.sht i j)
    ∧ (∀ j, laplaceBeltramiMatrix p j j
        = (p.shOrder j : ℚ) * ((p.shOrder j : ℚ) + 1))
    ∧ (∀ j, 4 < p.shOrder j → csdIterate p 0 j = 0) := by
  have hstat : normalMatrix p.A (positivityMatrix p (csdIterate p n))
      (laplaceBeltramiMatrix p) p.lambdaPos p.lambdaLB *ᵥ csdIterate p (n + 1)
      = (p.A)ᵀ *ᵥ p.b := linSolve_mulVec _ _ hdet
  refine ⟨hstat, ?_, ?_, ?_, ?_, ?_, ?_⟩
  · intro g
    exact regObjective_min p.A p.b (positivityMatrix p (csdIterate p n))
      (laplaceBeltramiMatrix p) p.lambdaPos p.lambdaLB (csdIterate p (n + 1))
      hlp hllb hstat g
  · intro g hg
    exact linSolve_unique _ _ _ hdet hg
  · intro i j h
    simp [positivityMatrix, h]
  · intro i j h
    simp [positivityMatrix, h]
  · intro j
    simp [laplaceBeltramiMatrix]
  · intro j hj
    simp [csdIterate, csdInit, Nat.not_le.mpr hj]

/-- Concrete instance of the CSD iteration theorem: on a one-coefficient
problem the first full iterate satisfies the normal equations. -/
theorem csd_iterate_closed_form_witness :
    normalMatrix csdConcrete.A
        (positivityMatrix csdConcrete (csdIterate csdConcrete 0))
        (laplaceBeltramiMatrix csdConcrete) csdConcrete.lambdaPos
        csdConcrete.lambdaLB *ᵥ csdIterate csdConcrete 1
      = (csdConcrete.A)ᵀ *ᵥ csdConcrete.b :=
  (csd_iterate_closed_form csdConcrete 0
    (by
      have h0 : normalMatrix csdConcrete.A
          (positivityMatrix csdConcrete (csdIterate csdConcrete 0))
          (laplaceBeltramiMatrix csdConcrete) csdConcrete.lambdaPos
          csdConcrete.lambdaLB
          = (csdConcrete.A)ᵀ * csdConcrete.A := by
        simp [normalMatrix, csdConcrete]
      rw [h0]
      simp [Matrix.det_fin_one, Matrix.mul_apply, Fin.sum_univ_one, csdConcrete])
    (by norm_num [csdConcrete]) (by norm_num [csdConcrete])).1

/-- C6: for a multi-tissue multi-compartment model, fitting runs the
multi-tissue optimization strictly after the standard optimization, on its
completed output: the standard-fit parameters are returned unchanged, while
the secondary step estimates only the linear S0-response-scaled volume
fractions by unconstrained least squares; no unity constraint is imposed on
them (on a concrete instance they sum to 1/2). -/
theorem multi_tissue_secondary_fit {nd np nc : ℕ} (mt : MTModel nd np nc)
    (standardOpt : (Fin nd → ℚ) → StandardFit np nc) (signal : Fin nd → ℚ)
    (hdet : ((s0ScaledMatrix mt (standardOpt signal).theta)ᵀ *
      s0ScaledMatrix mt (standardOpt signal).theta).det ≠ 0) :
    (mtModelFit mt standardOpt signal).standard = standardOpt signal
    ∧ (mtModelFit mt standardOpt signal).mtFractions
        = multiTissueFractions mt (standardOpt signal).theta signal
    ∧ (∀ g, normSq (s0ScaledMatrix mt (standardOpt signal).theta *ᵥ
          (mtModelFit mt standardOpt signal).mtFractions - signal)
        ≤ normSq (s0ScaledMatrix mt (standardOpt signal).theta *ᵥ g - signal))
    ∧ (∑ i, (mtModelFit mtConcrete stdConcrete unitSignal).mtFractions i)
        ≠ 1 := by
  refine ⟨rfl, rfl, ?_, ?_⟩
  · intro g
    exact linSolve_normal_min (s0ScaledMatrix mt (standardOpt signal).theta)
      signal hdet g
  · simp [mtModelFit, multiTissueFractions, linSolve, Matrix.adjugate_fin_one,
      Matrix.det_fin_one, s0ScaledMatrix, mtConcrete, stdConcrete, unitSignal,
      Matrix.mul_apply, Matrix.mulVec, Matrix.dotProduct, Fin.sum_univ_one]

/-- Concrete instance of the multi-tissue fit theorem: the standard-fit
output is returned unchanged on a concrete model, oracle and signal. -/
theorem multi_tissue_secondary_fit_witness :
    (mtModelFit mtConcrete stdConcrete unitSignal).standard
      = stdConcrete unitSignal :=
  (multi_tissue_secondary_fit mtConcrete stdConcrete unitSignal
    (by
      simp [Matrix.det_fin_one, Matrix.mul_apply, s0ScaledMatrix, mtConcrete,
        stdConcrete, Fin.sum_univ_one])).1

/-- C4: set_tortuous_parameter, set_equal_parameter and set_fixed_parameter
each remove exactly the linked parameter from parameter_names (all other
parameters remain), record a link whose internally computed value is
(1 - vf) * lambda_par for tortuosity, the first-named parameter's value for
equality, and the constant for fixing; on the tutorial's Watson bundle the
successive parameter_names lists are exactly those printed in the source. -/
theorem linked_parameter_operations (m : LinkedModel)
    (hnd : m.parameter_names.Nodup) (lperp lpar vf p q fx : String) (v : ℚ)
    (val : String → ℚ) :
    (lperp ∉ (set_tortuous_parameter m lperp lpar vf).parameter_names
      ∧ (∀ x, x ≠ lperp →
          (x ∈ (set_tortuous_parameter m lperp lpar vf).parameter_names
            ↔ x ∈ m.parameter_names))
      ∧ (set_tortuous_parameter m lperp lpar vf).links
          = (lperp, ParamLink.tortuous lpar vf) :: m.links)
    ∧ (q ∉ (set_equal_parameter m p q).parameter_names
      ∧ (∀ x, x ≠ q →
          (x ∈ (set_equal_parameter m p q).parameter_names
            ↔ x ∈ m.parameter_names))
      ∧ (set_equal_parameter m p q).links
          = (q, ParamLink.equalTo p) :: m.links)
    ∧ (fx ∉ (set_fixed_parameter m fx v).parameter_names
      ∧ (∀ x, x ≠ fx →
          (x ∈ (set_fixed_parameter m fx v).parameter_names
            ↔ x ∈ m.parameter_names))
      ∧ (set_fixed_parameter m fx v).links
          = (fx, ParamLink.fixedTo v) :: m.links)
    ∧ linkedValue val (ParamLink.tortuous lpar vf) = (1 - val vf) * val lpar
    ∧ linkedValue val (ParamLink.equalTo p) = val p
    ∧ linkedValue val (ParamLink.fixedTo v) = v
    ∧ (set_tortuous_parameter watsonBundle "G2Zeppelin_1_lambda_perp"
        "G2Zeppelin_1_lambda_par" "partial_volume_0").parameter_names
        = ["SD1Watson_1_odi", "G2Zeppelin_1_lambda_par", "SD1Watson_1_mu",
           "C1Stick_1_lambda_par", "partial_volume_0"]
    ∧ (set_equal_parameter (set_tortuous_parameter watsonBundle
          "G2Zeppelin_1_lambda_perp" "G2Zeppelin_1_lambda_par"
          "partial_volume_0") "C1Stick_1_lambda_par"
        "G2Zeppelin_1_lambda_par").parameter_names
        = ["SD1Watson_1_odi", "SD1Watson_1_mu", "C1Stick_1_lambda_par",
           "partial_volume_0"]
    ∧ (set_fixed_parameter (set_equal_parameter (set_tortuous_parameter
          watsonBundle "G2Zeppelin_1_lambda_perp" "G2Zeppelin_1_lambda_par"
          "partial_volume_0") "C1Stick_1_lambda_par"
          "G2Zeppelin_1_lambda_par") "C1Stick_1_lambda_par"
        (17 / 10000000000)).parameter_names
        = ["SD1Watson_1_odi", "SD1Watson_1_mu", "partial_volume_0"] := by
  refine ⟨⟨hnd.not_mem_erase, ?_, rfl⟩, ⟨hnd.not_mem_erase, ?_, rfl⟩,
    ⟨hnd.not_mem_erase, ?_, rfl⟩, rfl, rfl, rfl, by decide, by decide,
    by decide⟩
  · intro x hx
    exact List.mem_erase_of_ne hx
  · intro x hx
    exact List.mem_erase_of_ne hx
  · intro x hx
    exact List.mem_erase_of_ne hx

/-- Concrete instance of the linked-parameter theorem: the tortuosity-linked
perpendicular diffusivity is no longer among the optimized names. -/
theorem linked_parameter_operations_witness :
    "G2Zeppelin_1_lambda_perp" ∉ (set_tortuous_parameter watsonBundle
      "G2Zeppelin_1_lambda_perp" "G2Zeppelin_1_lambda_par"
      "partial_volume_0").parameter_names :=
  (linked_parameter_operations watsonBundle (by decide)
    "G2Zeppelin_1_lambda_perp" "G2Zeppelin_1_lambda_par" "partial_volume_0"
    "C1Stick_1_lambda_par" "G2Zeppelin_1_lambda_par" "C1Stick_1_lambda_par"
    1 (fun _ => 1)).1.1

/-- C10: set_fractional_parameter replaces parameter a in parameter_names by
the new parameter a_fraction (appended at the end of the names); the link is
internally interpreted as a = a_fraction * b, so whenever the new parameter
lies in its range [0, 1] and b is nonnegative (as diffusivities are), the
constraint a <= b holds; on the tutorial's Zeppelin model the resulting names
are exactly those printed in the source. -/
theorem fractional_parameter_constraint (m : LinkedModel)
    (hnd : m.parameter_names.Nodup) (a bpar : String) (val : String → ℚ)
    (hf0 : 0 ≤ val (a ++ "_fraction")) (hf1 : val (a ++ "_fraction") ≤ 1)
    (hb : 0 ≤ val bpar) :
    a ∉ (set_fractional_parameter m a bpar).parameter_names
    ∧ (a ++ "_fraction") ∈ (set_fractional_parameter m a bpar).parameter_names
    ∧ (∀ x, x ≠ a → x ∈ m.parameter_names →
        x ∈ (set_fractional_parameter m a bpar).parameter_names)
    ∧ linkedValue val (ParamLink.fractionTimes (a ++ "_fraction") bpar)
        = val (a ++ "_fraction") * val bpar
    ∧ linkedValue val (ParamLink.fractionTimes (a ++ "_fraction") bpar)
        ≤ val bpar
    ∧ (set_fractional_parameter smtModel "G2Zeppelin_1_lambda_perp"
        "G2Zeppelin_1_lambda_par").parameter_names
        = ["G2Zeppelin_1_lambda_par", "G2Zeppelin_1_lambda_perp_fraction"] := by
  have hne : a ≠ a ++ "_fraction" := by
    intro hcontra
    have hl := congrArg String.length hcontra
    rw [String.length_append] at hl
    have h9 : ("_fraction" : String).length = 9 := rfl
    omega
  refine ⟨?_, ?_, ?_, rfl, ?_, by decide⟩
  · intro hmem
    rcases List.mem_append.mp hmem with h1 | h1
    · exact hnd.not_mem_erase h1
    · rw [List.mem_singleton] at h1
      exact hne h1
  · exact List.mem_append.mpr (Or.inr (List.mem_singleton.mpr rfl))
  · intro x hx hxm
    exact List.mem_append.mpr (Or.inl ((List.mem_erase_of_ne hx).mpr hxm))
  · have hmul : val (a ++ "_fraction") * val bpar ≤ 1 * val bpar :=
      mul_le_mul_of_nonneg_right hf1 hb
    simpa [linkedValue] using hmul

/-- Concrete instance of the fractional-parameter theorem: the replaced
parameter is gone from the optimized names of the tutorial's Zeppelin model. -/
theorem fractional_parameter_constraint_witness :
    "G2Zeppelin_1_lambda_perp" ∉ (set_fractional_parameter smtModel
      "G2Zeppelin_1_lambda_perp" "G2Zeppelin_1_lambda_par").parameter_names :=
  (fractional_parameter_constraint smtModel (by decide)
    "G2Zeppelin_1_lambda_perp" "G2Zeppelin_1_lambda_par" (fun _ => 1 / 2)
    (by norm_num) (by norm_num) (by norm_num)).1

/-- C9 (amended): the MC-CSD construction supports exactly one anisotropic
convolution kernel plus a list of isotropic kernels; for every isotropic
compartment exactly one extra column is added to the observation matrix A
(the row count is unchanged) and one extra coefficient, that compartment's
sole l=0, m=0 coefficient, is appended at the end of f; the observation
matrix maps each isotropic coefficient to its attenuation at the data
positions, and each compartment's volume fraction is its l=0, m=0
coefficient multiplied by 2 * sqrt(pi). -/
theorem mccsd_column_augmentation {nd nc : ℕ}
    (aniso : Matrix (Fin nd) (Fin (nc + 1)) ℝ) (isos : List (Fin nd → ℝ))
    (g : Fin (nc + 1) → ℝ) (h : Fin isos.length → ℝ) :
    obsColCount (mcCsdObservationMatrix aniso isos)
        = obsColCount aniso + isos.length
    ∧ obsRowCount (mcCsdObservationMatrix aniso isos) = obsRowCount aniso
    ∧ mcCsdObservationMatrix aniso isos *ᵥ Sum.elim g h
        = aniso *ᵥ g + isoColumnMatrix isos *ᵥ h
    ∧ (∀ i, isoVolumeFraction (Sum.elim g h) i
        = h i * (2 * Real.sqrt Real.pi))
    ∧ anisoVolumeFraction (Sum.elim g h) = g 0 * (2 * Real.sqrt Real.pi)
    ∧ (∀ d i, mcCsdObservationMatrix aniso isos d (Sum.inr i)
        = isos.get i d) := by
  refine ⟨?_, rfl, ?_, fun i => rfl, rfl, fun d i => rfl⟩
  · simp [obsColCount]
  · exact Matrix.fromColumns_mulVec_sum_elim aniso (isoColumnMatrix isos) g h

/-- C9 counterexample to the claim as stated: on a concrete two-measurement
problem with one isotropic compartment, the constructed observation matrix
keeps its two rows (it does not gain one row per isotropic compartment) and
instead gains exactly one column. -/
theorem mccsd_row_count_cex :
    obsRowCount (mcCsdObservationMatrix anisoConcrete [isoConcrete]) = 2
    ∧ obsColCount (mcCsdObservationMatrix anisoConcrete [isoConcrete]) = 1 + 1
    ∧ obsRowCount (mcCsdObservationMatrix anisoConcrete [isoConcrete])
        ≠ 2 + 1 := by
  refine ⟨?_, ?_, ?_⟩
  · simp [obsRowCount]
  · simp [obsColCount]
  · simp [obsRowCount]
